import Mathlib

/-!
Verification of the RAG backend (`rag_system`): shallow embeddings of the
query-time pipeline components (context optimizer, query classifier, hybrid
retriever parameter selection, answer validator, MMR reranker), of the
protection layer (circuit breaker, rate limiter), and of the orchestration
and feedback persistence logic, together with theorems settling the spec
claims about them.

Conventions: Python floats are modelled as `ℚ`; machine integers as `ℕ`/`ℤ`;
fallible operations return `Option`/`Except`; wall-clock instants are `ℚ`
parameters threaded explicitly; database tables are Lean lists.
-/

namespace RagSpec

/-! ### Context optimizer: lost-in-the-middle reorder
Embeds `ContextOptimizer._reorder_lost_in_middle`
(`app/services/generation/context_optimizer.py`, lines 272-328).
The while-loop walks two cursors `left`/`right` over the ranked input and
appends alternately from the left and from the right end.  The loop runs at
most `arr.length` iterations (each iteration shrinks `right - left` by one),
so it is embedded with that fuel. -/

def reorderLoop {α : Type} [Inhabited α] (arr : List α) :
    ℕ → ℤ → ℤ → Bool → List α
  | 0, _, _, _ => []
  | fuel + 1, left, right, fromLeft =>
    if left ≤ right then
      if fromLeft then
        arr.getD left.toNat default :: reorderLoop arr fuel (left + 1) right false
      else
        arr.getD right.toNat default :: reorderLoop arr fuel left (right - 1) true
    else []

/-- Embedding of `ContextOptimizer._reorder_lost_in_middle`: inputs of length
at most 2 are returned unchanged; otherwise the alternating two-cursor loop
runs with `left = 0`, `right = n - 1`, starting from the left. -/
def reorder_lost_in_middle {α : Type} [Inhabited α] (results : List α) : List α :=
  if results.length ≤ 2 then results
  else reorderLoop results results.length 0 ((results.length : ℤ) - 1) true

/-! ### Query classifier: retrieval parameters and top_k override
Embeds `QueryClassifier.get_retrieval_params`
(`app/services/retrieval/query_classifier.py`, lines 142-190) and the
caller-supplied `top_k` override in `HybridRetriever.retrieve`
(`app/services/retrieval/hybrid_retriever.py`, lines 129-131). -/

inductive QueryType where
  | FACTUAL
  | COMPARATIVE
  | TEMPORAL
  | CONVERSATIONAL
  | MULTI_HOP
deriving DecidableEq, Repr

structure RetrievalParams where
  top_k : ℕ
  vector_weight : ℚ
  bm25_weight : ℚ
  recency_weight : ℚ
  mmr_lambda : ℚ
deriving DecidableEq, Repr

/-- Embedding of `QueryClassifier.get_retrieval_params`: the per-class
parameter dictionary from the source. -/
def get_retrieval_params : QueryType → RetrievalParams
  | .FACTUAL => ⟨5, 0.7, 0.2, 0.1, 0.5⟩
  | .COMPARATIVE => ⟨8, 0.6, 0.3, 0.1, 0.7⟩
  | .TEMPORAL => ⟨5, 0.5, 0.2, 0.3, 0.6⟩
  | .CONVERSATIONAL => ⟨5, 0.8, 0.1, 0.1, 0.5⟩
  | .MULTI_HOP => ⟨10, 0.6, 0.3, 0.1, 0.8⟩

/-- Parameter table written out from the spec (section 4.6), for comparison
against the code's dictionary. -/
def specParamsTable : QueryType → RetrievalParams
  | .FACTUAL => ⟨5, 70/100, 20/100, 10/100, 50/100⟩
  | .COMPARATIVE => ⟨8, 60/100, 30/100, 10/100, 70/100⟩
  | .TEMPORAL => ⟨5, 50/100, 20/100, 30/100, 60/100⟩
  | .CONVERSATIONAL => ⟨5, 80/100, 10/100, 10/100, 50/100⟩
  | .MULTI_HOP => ⟨10, 60/100, 30/100, 10/100, 80/100⟩

/-- Embedding of the `top_k` selection in `HybridRetriever.retrieve`
(lines 129-131): the classifier recommendation replaces the caller value
only when the caller value equals the default 5. -/
def retrieveTopK (caller_top_k : ℕ) (query_type : QueryType) : ℕ :=
  if caller_top_k = 5 then (get_retrieval_params query_type).top_k
  else caller_top_k

/-! ### Claim C1 (code_bug evidence) -/

/-- C1: evaluating `_reorder_lost_in_middle` on five results ranked
[0.9, 0.8, 0.7, 0.6, 0.5] yields [0.9, 0.5, 0.8, 0.6, 0.7], not the order
[0.9, 0.7, 0.5, 0.6, 0.8] promised by the spec and by the function docstring
(pattern "[1st best, 3rd best, 5th best, ..., 6th best, 4th best, 2nd best]"):
the code appends the ranked items in the order 1st, last, 2nd, second-last,
..., so the tail of the context is a middle-ranked item, not the 2nd best. -/
theorem c1_reorder_lost_in_middle_bug :
    reorder_lost_in_middle [(0.9 : ℚ), 0.8, 0.7, 0.6, 0.5]
        = [0.9, 0.5, 0.8, 0.6, 0.7] ∧
      reorder_lost_in_middle [(0.9 : ℚ), 0.8, 0.7, 0.6, 0.5]
        ≠ [0.9, 0.7, 0.5, 0.6, 0.8] := by
  refine ⟨rfl, ?_⟩
  simp only [reorder_lost_in_middle, reorderLoop]
  norm_num

/-! ### Claim C2 (corrected) -/

/-- C2 counterexample: a caller that supplies `top_k = 3` on a multi-hop
query retrieves with `top_k = 3`, not with the class's `top_k = 10`; the
class value is used only when the caller passes the default 5, refuting
"the retrieval uses the class's top_k whatever top_k the caller supplied". -/
theorem c2_top_k_override_counterexample :
    retrieveTopK 3 .MULTI_HOP = 3 ∧
      (get_retrieval_params .MULTI_HOP).top_k = 10 ∧
      retrieveTopK 3 .MULTI_HOP ≠ (get_retrieval_params .MULTI_HOP).top_k := by
  decide

/-- C2 (amended): the query class determines the retrieval parameters
exactly per the spec table (factual 5/0.70/0.20/0.10/0.50, comparative
8/0.60/0.30/0.10/0.70, temporal 5/0.50/0.20/0.30/0.60, conversational
5/0.80/0.10/0.10/0.50, multi-hop 10/0.60/0.30/0.10/0.80); the class's
`top_k` is used exactly when the caller supplied the default 5, and a
caller-supplied `top_k ≠ 5` is used as given. -/
theorem c2_retrieval_params_amended :
    (∀ qt : QueryType, get_retrieval_params qt = specParamsTable qt) ∧
      (∀ qt : QueryType, retrieveTopK 5 qt = (get_retrieval_params qt).top_k) ∧
      (∀ caller_top_k : ℕ, ∀ qt : QueryType, caller_top_k ≠ 5 →
        retrieveTopK caller_top_k qt = caller_top_k) := by
  refine ⟨?_, ?_, ?_⟩
  · intro qt
    cases qt <;> simp [get_retrieval_params, specParamsTable] <;> norm_num
  · intro qt; cases qt <;> rfl
  · intro caller_top_k qt h
    simp [retrieveTopK, h]

/-- C2 witness: the amended theorem applied at concrete inputs. -/
theorem c2_retrieval_params_amended_witness :
    retrieveTopK 7 .FACTUAL = 7 :=
  c2_retrieval_params_amended.2.2 7 .FACTUAL (by decide)

/-! ### Circuit breaker
Embeds `CircuitBreaker` (`app/services/protection/circuit_breaker.py`,
lines 85-235).  Wall-clock instants are `ℚ`; one call uses a single instant
`now` for all its `time.time()` reads.  `CallResult.rejected` models raising
`CircuitBreakerOpenError` before the wrapped generator is invoked;
`CallResult.invoked ok` models running the wrapped generator, which either
returns (`ok = true`) or raises (`ok = false`).  The write-only attributes
`failure_count` and `last_failure_time` (never read by the logic) are not
carried in the state. -/

inductive CircuitState where
  | CLOSED
  | OPEN
  | HALF_OPEN
deriving DecidableEq, Repr

structure CircuitBreakerConfig where
  failure_threshold : ℕ
  success_threshold : ℕ
  timeout : ℚ
  window : ℚ
deriving Repr

/-- Default `CircuitBreakerConfig()` values from the dataclass. -/
def defaultBreakerConfig : CircuitBreakerConfig := ⟨5, 2, 60, 60⟩

structure BreakerData where
  state : CircuitState
  success_count : ℕ
  failure_times : List ℚ
  opened_at : Option ℚ
deriving DecidableEq, Repr

/-- Breaker state right after `CircuitBreaker.__init__`. -/
def initialBreaker : BreakerData := ⟨.CLOSED, 0, [], none⟩

/-- Embedding of `CircuitBreaker._clean_old_failures`: keep failure
timestamps strictly newer than `now - window`. -/
def clean_old_failures (cfg : CircuitBreakerConfig) (now : ℚ)
    (times : List ℚ) : List ℚ :=
  times.filter (fun t => decide (now - cfg.window < t))

/-- Embedding of `CircuitBreaker._record_success`. -/
def record_success (cfg : CircuitBreakerConfig) (st : BreakerData) :
    BreakerData :=
  if st.state = .HALF_OPEN then
    if cfg.success_threshold ≤ st.success_count + 1 then
      ⟨.CLOSED, 0, [], none⟩
    else
      ⟨st.state, st.success_count + 1, st.failure_times, st.opened_at⟩
  else st

/-- Embedding of `CircuitBreaker._record_failure`: append the current
instant, drop timestamps outside the window, then reopen from HALF_OPEN or
trip from CLOSED when the in-window count reaches the threshold. -/
def record_failure (cfg : CircuitBreakerConfig) (st : BreakerData)
    (now : ℚ) : BreakerData :=
  let times := clean_old_failures cfg now (st.failure_times ++ [now])
  if st.state = .HALF_OPEN then
    ⟨.OPEN, 0, times, some now⟩
  else if st.state = .CLOSED then
    if cfg.failure_threshold ≤ times.length then
      ⟨.OPEN, st.success_count, times, some now⟩
    else
      ⟨st.state, st.success_count, times, st.opened_at⟩
  else
    ⟨st.state, st.success_count, times, st.opened_at⟩

inductive GenOutcome where
  | success
  | failure
deriving DecidableEq, Repr

inductive CallResult where
  | rejected
  | invoked (ok : Bool)
deriving DecidableEq, Repr

/-- Embedding of `CircuitBreaker.call` with `_should_attempt_reset`
inlined: in OPEN with the timeout elapsed since opening, move to HALF_OPEN
with a reset success count; then an OPEN circuit rejects without invoking
the wrapped generator; otherwise the generator runs and its outcome is
recorded. -/
def breakerCall (cfg : CircuitBreakerConfig) (st : BreakerData) (now : ℚ)
    (outcome : GenOutcome) : CallResult × BreakerData :=
  let st1 :=
    match st.state, st.opened_at with
    | .OPEN, some ta =>
      if cfg.timeout ≤ now - ta then
        ⟨.HALF_OPEN, 0, st.failure_times, st.opened_at⟩
      else st
    | _, _ => st
  if st1.state = .OPEN then (.rejected, st1)
  else
    match outcome with
    | .success => (.invoked true, record_success cfg st1)
    | .failure => (.invoked false, record_failure cfg st1 now)

/-- Sequential runs of the breaker over timed generator outcomes. -/
def breakerRun (cfg : CircuitBreakerConfig) (st : BreakerData) :
    List (ℚ × GenOutcome) → BreakerData
  | [] => st
  | (t, o) :: rest => breakerRun cfg (breakerCall cfg st t o).2 rest

/-! ### Rate limiter
Embeds `RateLimiter.check_rate_limit`
(`app/services/protection/rate_limiter.py`, lines 83-206) including the Lua
token-bucket script.  The Redis hash for a tenant is an `Option Bucket`; a
store failure is the `Except.error` case of the store argument, matching the
`except` clause that fails open. -/

structure Bucket where
  tokens : ℚ
  last_refill : ℚ
deriving DecidableEq, Repr

structure RateLimitResult where
  allowed : Bool
  remaining : ℤ
  reset_time : ℚ
  retry_after : Option ℤ
deriving DecidableEq, Repr

/-- Refill step of the Lua script: a missing bucket starts full at `rate`;
an existing bucket gains `elapsed / window * rate` tokens, capped at
`rate`. -/
def bucketRefill (rate window : ℕ) (now : ℚ) : Option Bucket → ℚ
  | none => rate
  | some b => min (rate : ℚ) (b.tokens + (now - b.last_refill) / window * rate)

/-- Consume step of the Lua script: with at least one token, consume it and
write the bucket back; otherwise deny with
`retry_after = ceil((1 - tokens) / rate * window)` and leave the bucket
unwritten. -/
def luaTokenBucket (rate window : ℕ) (now : ℚ) (b : Option Bucket) :
    (Bool × ℤ × ℤ) × Option Bucket :=
  let tokens := bucketRefill rate window now b
  if 1 ≤ tokens then
    ((true, ⌊tokens - 1⌋, 0), some ⟨tokens - 1, now⟩)
  else
    ((false, 0, ⌈(1 - tokens) / rate * window⌉), b)

/-- Embedding of `RateLimiter.check_rate_limit`: on a store error the check
fails open (request allowed, `remaining = rate`); otherwise the Lua script
runs and `retry_after` is surfaced only when positive. -/
def check_rate_limit (rate window : ℕ) (now : ℚ)
    (store : Except Unit (Option Bucket)) :
    RateLimitResult × Except Unit (Option Bucket) :=
  match store with
  | .error e => (⟨true, (rate : ℤ), now + window, none⟩, .error e)
  | .ok b =>
    let r := luaTokenBucket rate window now b
    (⟨r.1.1, r.1.2.1, now + window,
        if 0 < r.1.2.2 then some r.1.2.2 else none⟩,
      .ok r.2)

/-- Sequential rate-limit checks, threading the stored bucket. -/
def rateLimitTrace (rate window : ℕ) :
    List ℚ → Except Unit (Option Bucket) →
      List RateLimitResult × Except Unit (Option Bucket)
  | [], s => ([], s)
  | t :: ts, s =>
    let r := check_rate_limit rate window t s
    let rest := rateLimitTrace rate window ts r.2
    (r.1 :: rest.1, rest.2)

/-- Unfolding lemma: the window filter examined one timestamp at a time. -/
theorem clean_old_failures_cons (cfg : CircuitBreakerConfig) (now a : ℚ)
    (l : List ℚ) :
    clean_old_failures cfg now (a :: l)
      = if now - cfg.window < a then a :: clean_old_failures cfg now l
        else clean_old_failures cfg now l := by
  by_cases h : now - cfg.window < a <;> simp [clean_old_failures, h]

/-- Unfolding lemma: the window filter on the empty list. -/
theorem clean_old_failures_nil (cfg : CircuitBreakerConfig) (now : ℚ) :
    clean_old_failures cfg now [] = [] := rfl

theorem cs_closed_ne_open : CircuitState.CLOSED ≠ CircuitState.OPEN := nofun

theorem cs_closed_ne_half_open : CircuitState.CLOSED ≠ CircuitState.HALF_OPEN := nofun

theorem cs_open_ne_closed : CircuitState.OPEN ≠ CircuitState.CLOSED := nofun

theorem cs_open_ne_half_open : CircuitState.OPEN ≠ CircuitState.HALF_OPEN := nofun

theorem cs_half_open_ne_closed : CircuitState.HALF_OPEN ≠ CircuitState.CLOSED := nofun

theorem cs_half_open_ne_open : CircuitState.HALF_OPEN ≠ CircuitState.OPEN := nofun

/-! ### Claim C5 (confirmed) -/

set_option maxHeartbeats 1000000 in
/-- C5: the circuit breaker satisfies the spec transitions.  In CLOSED a
failure opens the circuit exactly when at least `failure_threshold` failures
(current one included) fall within the rolling window, and calls are passed
through to the generator.  In OPEN before `timeout` seconds have elapsed
since opening, every call is rejected without invoking the generator and the
state is untouched; once `timeout` has elapsed the probing call is admitted
(in HALF_OPEN).  In HALF_OPEN a success closes the circuit exactly when it
is the `success_threshold`-th consecutive success, and any failure reopens
the circuit at the current instant.  Finally the spec scenario: from a fresh
breaker with default config, 5 failures at t = 0..4 (all within 60 s) open
the circuit, the 6th call at t = 5 is rejected without invoking the
generator, and two consecutive successes at t = 65, 66 close it. -/
theorem c5_circuit_breaker_transitions (cfg : CircuitBreakerConfig)
    (st : BreakerData) (now : ℚ) :
    (st.state = .CLOSED →
      ((breakerCall cfg st now .failure).2.state = .OPEN ↔
        cfg.failure_threshold ≤
          (st.failure_times ++ [now]).countP
            (fun t => decide (now - cfg.window < t))) ∧
      (breakerCall cfg st now .failure).1 = .invoked false) ∧
    (∀ ta : ℚ, st.state = .OPEN → st.opened_at = some ta →
      now - ta < cfg.timeout → ∀ o : GenOutcome,
        breakerCall cfg st now o = (.rejected, st)) ∧
    (∀ ta : ℚ, st.state = .OPEN → st.opened_at = some ta →
      cfg.timeout ≤ now - ta → ∀ o : GenOutcome,
        (breakerCall cfg st now o).1 ≠ .rejected) ∧
    (st.state = .HALF_OPEN →
      ((breakerCall cfg st now .success).2.state = .CLOSED ↔
        cfg.success_threshold ≤ st.success_count + 1)) ∧
    (st.state = .HALF_OPEN →
      (breakerCall cfg st now .failure).2.state = .OPEN ∧
      (breakerCall cfg st now .failure).2.opened_at = some now) ∧
    (breakerRun defaultBreakerConfig initialBreaker
        [(0, .failure), (1, .failure), (2, .failure), (3, .failure),
          (4, .failure)]
      = ⟨.OPEN, 0, [0, 1, 2, 3, 4], some 4⟩ ∧
      breakerCall defaultBreakerConfig ⟨.OPEN, 0, [0, 1, 2, 3, 4], some 4⟩
          5 .failure
        = (.rejected, ⟨.OPEN, 0, [0, 1, 2, 3, 4], some 4⟩) ∧
      (breakerRun defaultBreakerConfig ⟨.OPEN, 0, [0, 1, 2, 3, 4], some 4⟩
          [(65, .success), (66, .success)]).state = .CLOSED) := by
  obtain ⟨s, sc, ft, oa⟩ := st
  refine ⟨?_, ?_, ?_, ?_, ?_, ?_⟩
  · intro hs
    simp only at hs
    subst hs
    have h2 : breakerCall cfg ⟨.CLOSED, sc, ft, oa⟩ now .failure
        = (.invoked false, record_failure cfg ⟨.CLOSED, sc, ft, oa⟩ now) :=
      rfl
    have h3 : record_failure cfg ⟨.CLOSED, sc, ft, oa⟩ now
        = if cfg.failure_threshold ≤
              (clean_old_failures cfg now (ft ++ [now])).length
          then ⟨.OPEN, sc, clean_old_failures cfg now (ft ++ [now]), some now⟩
          else ⟨.CLOSED, sc, clean_old_failures cfg now (ft ++ [now]), oa⟩ :=
      rfl
    have h4 : clean_old_failures cfg now (ft ++ [now])
        = List.filter (fun t => decide (now - cfg.window < t)) (ft ++ [now]) :=
      rfl
    rw [h2, h3, List.countP_eq_length_filter, h4]
    refine ⟨?_, rfl⟩
    split_ifs with h
    · exact iff_of_true rfl h
    · exact iff_of_false (by simp [cs_closed_ne_open]) h
  · intro ta hs hoa hlt o
    simp only at hs hoa
    subst hs hoa
    simp only [breakerCall]
    rw [if_neg (not_le.mpr hlt)]
    rfl
  · intro ta hs hoa hle o
    simp only at hs hoa
    subst hs hoa
    simp only [breakerCall]
    rw [if_pos hle]
    cases o <;> simp [cs_half_open_ne_open]
  · intro hs
    simp only at hs
    subst hs
    have h2 : (breakerCall cfg ⟨.HALF_OPEN, sc, ft, oa⟩ now .success).2
        = record_success cfg ⟨.HALF_OPEN, sc, ft, oa⟩ := by
      cases oa <;> rfl
    have h3 : record_success cfg ⟨.HALF_OPEN, sc, ft, oa⟩
        = if cfg.success_threshold ≤ sc + 1 then ⟨.CLOSED, 0, [], none⟩
          else ⟨.HALF_OPEN, sc + 1, ft, oa⟩ := rfl
    rw [h2, h3]
    split_ifs with h <;> simp [h, cs_half_open_ne_closed]
  · intro hs
    simp only at hs
    subst hs
    have h2 : (breakerCall cfg ⟨.HALF_OPEN, sc, ft, oa⟩ now .failure).2
        = record_failure cfg ⟨.HALF_OPEN, sc, ft, oa⟩ now := by
      cases oa <;> rfl
    rw [h2]
    exact ⟨rfl, rfl⟩
  · refine ⟨?_, ?_, ?_⟩
    · norm_num [breakerRun, breakerCall, record_failure, record_success,
        clean_old_failures_cons, clean_old_failures_nil, initialBreaker,
        defaultBreakerConfig, cs_closed_ne_open, cs_closed_ne_half_open,
        cs_open_ne_closed, cs_open_ne_half_open, cs_half_open_ne_closed,
        cs_half_open_ne_open]
    · norm_num [breakerCall, defaultBreakerConfig]
    · norm_num [breakerRun, breakerCall, record_failure, record_success,
        clean_old_failures_cons, clean_old_failures_nil,
        defaultBreakerConfig, cs_closed_ne_open, cs_closed_ne_half_open,
        cs_open_ne_closed, cs_open_ne_half_open, cs_half_open_ne_closed,
        cs_half_open_ne_open]

/-- C5 witness: the transition theorem applied at concrete states covering
the rejection rule, the CLOSED trip rule and the HALF_OPEN close rule. -/
theorem c5_circuit_breaker_transitions_witness :
    breakerCall defaultBreakerConfig ⟨.OPEN, 0, [0, 1, 2, 3, 4], some 4⟩
        10 .failure
      = (.rejected, ⟨.OPEN, 0, [0, 1, 2, 3, 4], some 4⟩) ∧
    (breakerCall defaultBreakerConfig ⟨.CLOSED, 0, [1, 2, 3, 4], none⟩
        5 .failure).2.state = .OPEN ∧
    (breakerCall defaultBreakerConfig ⟨.HALF_OPEN, 1, [], some 4⟩
        65 .success).2.state = .CLOSED := by
  refine ⟨?_, ?_, ?_⟩
  · exact (c5_circuit_breaker_transitions defaultBreakerConfig
      ⟨.OPEN, 0, [0, 1, 2, 3, 4], some 4⟩ 10).2.1 4 rfl rfl
      (by norm_num [defaultBreakerConfig]) .failure
  · exact ((c5_circuit_breaker_transitions defaultBreakerConfig
      ⟨.CLOSED, 0, [1, 2, 3, 4], none⟩ 5).1 rfl).1.mpr (by
        norm_num [List.countP_cons, List.countP_nil, decide_eq_true_eq,
          defaultBreakerConfig])
  · exact (c5_circuit_breaker_transitions defaultBreakerConfig
      ⟨.HALF_OPEN, 1, [], some 4⟩ 65).2.2.2.1 rfl |>.mpr (by
        norm_num [defaultBreakerConfig])

/-! ### Claim C6 (confirmed) -/

/-- C6: when the refilled bucket holds fewer than one token the check
denies the request with
`retry_after = ceil((1 - tokens) / rate * window)` seconds; when the
backing store errors the check fails open and allows the request.  Spec
scenario: with rate 10 and window 60, eleven immediate requests against an
absent bucket are allowed ten times and the eleventh is denied with
`retry_after = ceil((1 - 0) / 10 * 60) = 6`. -/
theorem c6_rate_limit_exhaustion (rate window : ℕ) (b : Option Bucket)
    (now : ℚ) (hr : 0 < rate) (hw : 0 < window) :
    (bucketRefill rate window now b < 1 →
      (check_rate_limit rate window now (.ok b)).1.allowed = false ∧
      (check_rate_limit rate window now (.ok b)).1.retry_after
        = some ⌈(1 - bucketRefill rate window now b) / rate * window⌉) ∧
    (∀ e : Unit,
      (check_rate_limit rate window now (.error e)).1.allowed = true) ∧
    ((rateLimitTrace 10 60 (List.replicate 11 0) (.ok none)).1.map
        (fun r => (r.allowed, r.retry_after))
      = List.replicate 10 (true, none) ++ [(false, some 6)]) := by
  refine ⟨?_, ?_, ?_⟩
  · intro htok
    have hpos : (0 : ℚ) < (1 - bucketRefill rate window now b) / rate * window := by
      have h1 : (0 : ℚ) < (rate : ℚ) := by exact_mod_cast hr
      have h2 : (0 : ℚ) < (window : ℚ) := by exact_mod_cast hw
      have h3 : (0 : ℚ) < 1 - bucketRefill rate window now b := by linarith
      positivity
    have hceil : 0 < ⌈(1 - bucketRefill rate window now b) / rate * window⌉ :=
      Int.ceil_pos.mpr hpos
    constructor
    · simp [check_rate_limit, luaTokenBucket, not_le.mpr htok]
    · simp [check_rate_limit, luaTokenBucket, not_le.mpr htok, hceil]
  · intro e
    simp [check_rate_limit]
  · norm_num [rateLimitTrace, check_rate_limit, luaTokenBucket,
      bucketRefill, List.replicate]

/-- C6 witness: the theorem applied at rate 10, window 60, an exhausted
bucket and instant 0. -/
theorem c6_rate_limit_exhaustion_witness :
    (check_rate_limit 10 60 0 (.ok (some ⟨0, 0⟩))).1.allowed = false ∧
    (check_rate_limit 10 60 0 (.ok (some ⟨0, 0⟩))).1.retry_after
      = some ⌈(1 - bucketRefill 10 60 0 (some ⟨0, 0⟩)) / 10 * 60⌉ :=
  (c6_rate_limit_exhaustion 10 60 (some ⟨0, 0⟩) 0 (by norm_num)
    (by norm_num)).1 (by norm_num [bucketRefill])

/-! ### Answer validator
Embeds `AnswerValidator` (`app/services/generation/answer_validator.py`).
The citation pattern `\[Source\s+(\d+)(?:\s*,\s*(\d+))*\]` (compiled with
IGNORECASE) is embedded as a recursive matcher over the character list; for
this pattern the greedy left-to-right parse coincides with the backtracking
regex semantics, because a digit run can never continue as `]` and a
whitespace run can never continue as `,` or `than`-style literals.  Only the
ASCII fragment of the character classes `\s` and `\d` is modelled, which
covers every string appearing in the development. -/

def isSpaceChar (c : Char) : Bool :=
  c = ' ' || c = '\t' || c = '\n' || c = '\r' || c = '\x0b' || c = '\x0c'

def isDigitChar (c : Char) : Bool :=
  '0' ≤ c && c ≤ '9'

def natOfDigits (ds : List Char) : ℕ :=
  ds.foldl (fun acc c => acc * 10 + (c.toNat - 48)) 0

/-- Match a literal character sequence case-insensitively at the head of the
input, returning the rest of the input. -/
def parseLitCI : List Char → List Char → Option (List Char)
  | [], cs => some cs
  | _ :: _, [] => none
  | p :: ps, c :: cs => if c.toLower = p then parseLitCI ps cs else none

/-- Match `\d+` at the head of the input (greedy digit run). -/
def parseNum (cs : List Char) : Option (ℕ × List Char) :=
  match cs.takeWhile isDigitChar with
  | [] => none
  | ds => some (natOfDigits ds, cs.dropWhile isDigitChar)

/-- Match `(?:\s*,\s*\d+)*` at the head of the input, returning the numbers
collected; on a failed iteration, no input is consumed.  Each successful
iteration consumes at least the comma and one digit, so the input length
bounds the iteration count. -/
def parseMoreNums : ℕ → List Char → List ℕ × List Char
  | 0, cs => ([], cs)
  | fuel + 1, cs =>
    let cs1 := cs.dropWhile isSpaceChar
    match cs1 with
    | ',' :: cs2 =>
      let cs3 := cs2.dropWhile isSpaceChar
      match parseNum cs3 with
      | some (n, rest) =>
        let r := parseMoreNums fuel rest
        (n :: r.1, r.2)
      | none => ([], cs)
    | _ => ([], cs)

/-- Match the full citation pattern `\[Source\s+\d+(\s*,\s*\d+)*\]` at the
head of the input, returning the numbers inside the match and the rest of
the input. -/
def matchCitationAt (cs : List Char) : Option (List ℕ × List Char) :=
  match parseLitCI (String.toList "[source") cs with
  | none => none
  | some cs1 =>
    match cs1 with
    | [] => none
    | c :: cs2 =>
      if isSpaceChar c then
        let cs3 := cs2.dropWhile isSpaceChar
        match parseNum cs3 with
        | none => none
        | some (n, rest) =>
          let more := parseMoreNums rest.length rest
          match more.2 with
          | ']' :: rest2 => some (n :: more.1, rest2)
          | _ => none
      else none

/-- Left-to-right non-overlapping scan of `finditer`: at each position try
the citation pattern; on a match, continue after it, otherwise advance one
character.  Each step consumes at least one character, so the input length
bounds the recursion. -/
def citationNumbersAux : ℕ → List Char → List ℕ
  | 0, _ => []
  | _, [] => []
  | fuel + 1, c :: rest =>
    match matchCitationAt (c :: rest) with
    | some (ns, rest2) => ns ++ citationNumbersAux fuel rest2
    | none => citationNumbersAux fuel rest

/-- All integers appearing inside the citation-pattern matches of the
answer, in occurrence order (with repetitions). -/
def citationNumbers (answer : String) : List ℕ :=
  citationNumbersAux answer.toList.length answer.toList

/-- Embedding of `AnswerValidator._extract_citations`: the set of integers
found inside the matches (`set` modelled as `dedup`), listed in ascending
order (`sorted` modelled as insertion sort). -/
def extract_citations (answer : String) : List ℕ :=
  List.insertionSort (· ≤ ·) (citationNumbers answer).dedup

/-- Embedding of `AnswerValidator._validate_citations`: the set difference
`cited - available`, listed in ascending order.  The `source_mapping`
dictionary is represented by its key set. -/
def validate_citations (citations : List ℕ) (available : Finset ℕ) :
    List ℕ :=
  List.insertionSort (· ≤ ·)
    (citations.dedup.filter (fun c => decide (c ∉ available)))

/-- Warnings of `AnswerValidator._add_warnings`, abstracted from their
interpolated message strings to constructors carrying the interpolated
data. -/
inductive WarningTag where
  | no_citations
  | invalid_citations (invalid : List ℕ)
  | low_confidence (score : ℚ)
  | hallucinations
deriving DecidableEq, Repr

/-- Embedding of `AnswerValidator._add_warnings`: warnings are appended for
an answer with no citations, for invalid citations, for confidence below
0.5, and for flagged hallucinations, in this order. -/
def add_warnings (citations invalid : List ℕ) (confidence : ℚ)
    (halluc : Bool) : List WarningTag :=
  (if citations.isEmpty then [WarningTag.no_citations] else []) ++
    (if invalid.isEmpty then [] else [WarningTag.invalid_citations invalid]) ++
    (if confidence < 0.5 then [WarningTag.low_confidence confidence] else []) ++
    (if halluc then [WarningTag.hallucinations] else [])

/-- Word count as Python `len(answer.split())`: the number of maximal
non-whitespace runs. -/
def wordCount (answer : String) : ℕ :=
  (answer.toList.foldl
    (fun st c =>
      if isSpaceChar c then (st.1, false)
      else if st.2 then st else (st.1 + 1, true))
    ((0 : ℕ), false)).1

/-- Count of non-overlapping occurrences of a literal pattern, scanning left
to right as `findall` does; the input length bounds the recursion. -/
def countOccursAux : ℕ → List Char → List Char → ℕ
  | 0, _, _ => 0
  | _, _, [] => 0
  | fuel + 1, p, c :: rest =>
    if p.isPrefixOf (c :: rest) then
      1 + countOccursAux fuel p ((c :: rest).drop p.length)
    else countOccursAux fuel p rest

def countOccurs (pat : List Char) (text : List Char) : ℕ :=
  countOccursAux text.length pat text

/-- Apostrophe character, written by code point. -/
def apos : Char := Char.ofNat 39

/-- The `UNCERTAINTY_PATTERNS` literals, lowercased (the compiled patterns
are IGNORECASE and contain no regex metacharacters). -/
def uncertaintyPatterns : List (List Char) :=
  [String.toList "i don" ++ [apos] ++ String.toList "t have",
    String.toList "i do not have",
    String.toList "insufficient information",
    String.toList "not enough information",
    String.toList "cannot find",
    String.toList "unable to answer",
    String.toList "no information",
    String.toList "sources don" ++ [apos] ++ String.toList "t contain",
    String.toList "sources do not contain"]

/-- Total number of uncertainty-pattern matches in the answer, as summed in
`AnswerValidator._calculate_confidence`. -/
def uncertaintyCount (answer : String) : ℕ :=
  (uncertaintyPatterns.map
    (fun p => countOccurs p (answer.toList.map Char.toLower))).sum

/-- Embedding of `AnswerValidator._calculate_confidence`: base 0.5, a
valid-citation bonus, an invalid-citation bonus or penalty, a capped
citation-density bonus, an uncertainty bonus or penalty, clamped to
[0, 1]. -/
def calculate_confidence (answer : String) (citations invalid : List ℕ) :
    ℚ :=
  let f1 : ℚ :=
    if citations ≠ [] then
      let valid := citations.filter (fun c => decide (c ∉ invalid))
      if valid ≠ [] then
        0.4 * ((valid.length : ℚ) / (max citations.length 1 : ℕ))
      else 0
    else 0
  let f2 : ℚ :=
    if invalid = [] then 0.3
    else -(0.3 * ((invalid.length : ℚ) / (max citations.length 1 : ℕ)))
  let wc := wordCount answer
  let f3 : ℚ :=
    if 0 < wc then
      min 0.2 ((citations.length : ℚ) / wc * 100 / 25 * 0.2)
    else 0
  let u := uncertaintyCount answer
  let f4 : ℚ := if u = 0 then 0.1 else -(min 0.1 ((u : ℚ) * 0.05))
  max 0 (min 1 (0 + 0.5 + f1 + f2 + f3 + f4))

/-- Confidence formula written out from the claim wording (spec section
4.9), for comparison with the code's accumulation. -/
def specConfidence (answer : String) (available : Finset ℕ) : ℚ :=
  let citations := extract_citations answer
  let invalid := validate_citations citations available
  let total : ℚ := citations.length
  let valid : ℚ := (citations.filter (fun c => decide (c ∉ invalid))).length
  let f1 : ℚ := if 1 ≤ citations.length then 0.4 * (valid / total) else 0
  let f2 : ℚ :=
    if invalid = [] then 0.3 else -(0.3 * ((invalid.length : ℚ) / total))
  let wc := wordCount answer
  let cp100w : ℚ := if wc = 0 then 0 else (citations.length : ℚ) * 100 / wc
  let f3 : ℚ := min 0.2 (cp100w / 25 * 0.2)
  let u := uncertaintyCount answer
  let f4 : ℚ := if u = 0 then 0.1 else -(min 0.1 (0.05 * (u : ℚ)))
  max 0 (min 1 (0.5 + f1 + f2 + f3 + f4))

/-! ### Claim C3 (confirmed) -/

/-- C3: citation extraction returns exactly the distinct integers appearing
inside the citation-pattern matches, in ascending order without duplicates;
citation validation returns exactly the cited numbers missing from the
available source numbers, in ascending order without duplicates; and on the
spec example with sources 1-3 and answer "A [Source 1]. B [Source 4, 2]."
the citations are [1, 2, 4], the invalid list is [4], and an
invalid-citation warning is emitted whatever the confidence and
hallucination flag. -/
theorem c3_citation_extraction :
    (∀ answer : String,
      (extract_citations answer).Sorted (· ≤ ·) ∧
      (extract_citations answer).Nodup ∧
      (∀ n : ℕ, n ∈ extract_citations answer ↔ n ∈ citationNumbers answer)) ∧
    (∀ (citations : List ℕ) (available : Finset ℕ),
      (validate_citations citations available).Sorted (· ≤ ·) ∧
      (validate_citations citations available).Nodup ∧
      (∀ n : ℕ, n ∈ validate_citations citations available ↔
        (n ∈ citations ∧ n ∉ available))) ∧
    extract_citations "A [Source 1]. B [Source 4, 2]." = [1, 2, 4] ∧
    validate_citations [1, 2, 4] ({1, 2, 3} : Finset ℕ) = [4] ∧
    (∀ (confidence : ℚ) (halluc : Bool),
      WarningTag.invalid_citations [4] ∈
        add_warnings [1, 2, 4] [4] confidence halluc) := by
  refine ⟨?_, ?_, by decide, by decide, ?_⟩
  · intro answer
    refine ⟨List.sorted_insertionSort _ _, ?_, ?_⟩
    · exact ((List.perm_insertionSort _ _).nodup_iff).mpr
        (List.nodup_dedup _)
    · intro n
      exact ((List.perm_insertionSort _ _).mem_iff).trans
        (List.mem_dedup)
  · intro citations available
    refine ⟨List.sorted_insertionSort _ _, ?_, ?_⟩
    · exact ((List.perm_insertionSort _ _).nodup_iff).mpr
        ((List.nodup_dedup _).filter _)
    · intro n
      rw [validate_citations, (List.perm_insertionSort _ _).mem_iff,
        List.mem_filter, List.mem_dedup]
      simp
  · intro confidence halluc
    simp [add_warnings]

set_option maxHeartbeats 1000000 in
/-- Factor-by-factor comparison of the code's confidence accumulation with
the spec formula, for a non-empty citation list and arbitrary factor
inputs. -/
theorem confidenceFactorsEq (cit vld inv : List ℕ) (wc u : ℕ)
    (hc : cit ≠ []) :
    max 0 (min 1 ((0:ℚ) + 0.5
        + (if cit ≠ [] then
            (if vld ≠ [] then
              (0.4:ℚ) * ((vld.length : ℚ) / (max cit.length 1 : ℕ))
            else 0)
          else 0)
        + (if inv = [] then (0.3:ℚ)
          else -(0.3 * ((inv.length : ℚ) / (max cit.length 1 : ℕ))))
        + (if 0 < wc then
            min (0.2:ℚ) ((cit.length : ℚ) / wc * 100 / 25 * 0.2)
          else 0)
        + (if u = 0 then (0.1:ℚ) else -(min 0.1 ((u : ℚ) * 0.05)))))
      = max 0 (min 1 ((0.5:ℚ)
        + (if 1 ≤ cit.length then
            (0.4:ℚ) * ((vld.length : ℚ) / (cit.length : ℚ))
          else 0)
        + (if inv = [] then (0.3:ℚ)
          else -(0.3 * ((inv.length : ℚ) / (cit.length : ℚ))))
        + min (0.2:ℚ)
            ((if wc = 0 then (0:ℚ) else (cit.length : ℚ) * 100 / wc)
              / 25 * 0.2)
        + (if u = 0 then (0.1:ℚ) else -(min 0.1 (0.05 * (u : ℚ)))))) := by
  have hlen : 0 < cit.length := List.length_pos.mpr hc
  have hmax : ((max cit.length 1 : ℕ) : ℚ) = (cit.length : ℚ) := by
    rw [max_eq_left hlen]
  rw [if_pos hc, hmax, if_pos (show 1 ≤ cit.length from hlen)]
  have e1 : (if vld ≠ [] then
        (0.4:ℚ) * ((vld.length : ℚ) / (cit.length : ℚ)) else 0)
      = (0.4:ℚ) * ((vld.length : ℚ) / (cit.length : ℚ)) := by
    by_cases hv : vld = []
    · simp [hv]
    · rw [if_pos hv]
  have e3 : (if 0 < wc then
        min (0.2:ℚ) ((cit.length : ℚ) / wc * 100 / 25 * 0.2) else 0)
      = min (0.2:ℚ)
          ((if wc = 0 then (0:ℚ) else (cit.length : ℚ) * 100 / wc)
            / 25 * 0.2) := by
    by_cases hw : wc = 0
    · rw [if_neg (by omega), if_pos hw]
      norm_num
    · rw [if_pos (Nat.pos_of_ne_zero hw), if_neg hw]
      congr 1
      ring
  have e4 : (if u = 0 then (0.1:ℚ) else -(min 0.1 ((u : ℚ) * 0.05)))
      = (if u = 0 then (0.1:ℚ) else -(min 0.1 (0.05 * (u : ℚ)))) := by
    rw [mul_comm]
  rw [e1, e3, e4]
  norm_num

/-! ### Claim C4 (confirmed) -/

set_option maxHeartbeats 1000000 in
/-- C4: for every generated answer and available source set, the validator
confidence equals the spec formula — 0.5, plus 0.4 times the valid-citation
ratio when there is at least one citation, plus 0.3 with no invalid
citations or minus 0.3 times the invalid ratio otherwise, plus the capped
citation-density term, plus 0.1 with no uncertainty phrases or minus
min(0.1, 0.05 times their count) otherwise, clamped to [0, 1] — and in
particular the confidence always lies in [0, 1]. -/
theorem c4_confidence_formula (answer : String) (available : Finset ℕ) :
    calculate_confidence answer (extract_citations answer)
        (validate_citations (extract_citations answer) available)
      = specConfidence answer available ∧
    0 ≤ calculate_confidence answer (extract_citations answer)
        (validate_citations (extract_citations answer) available) ∧
    calculate_confidence answer (extract_citations answer)
        (validate_citations (extract_citations answer) available) ≤ 1 := by
  refine ⟨?_, ?_, ?_⟩
  · simp only [calculate_confidence, specConfidence]
    by_cases hc : extract_citations answer = []
    · have hinv : validate_citations [] available = [] := rfl
      rw [hc, hinv]
      by_cases hw : wordCount answer = 0
      · rw [hw]
        norm_num [mul_comm]
      · rw [if_pos (Nat.pos_of_ne_zero hw), if_neg hw]
        norm_num [mul_comm]
    · exact confidenceFactorsEq _ _ _ _ _ hc
  · simp only [calculate_confidence]
    exact le_max_left 0 _
  · simp only [calculate_confidence]
    exact max_le (by norm_num) (min_le_left _ _)

/-! ### Chat orchestrator
Embeds the retrieval-outcome branch of `ChatService.process_chat`
(`app/services/orchestration/chat_service.py`, lines 246-260), the empty
response `_create_empty_response` (lines 494-531) and the persistence in
`_format_response` (lines 459-490).  The protection gates, latency, token
and cost bookkeeping, and the sources list are outside this claim and are
not carried; the generated-and-validated answer is an input.  The
`chat_interactions` table is a list of rows and a fresh row id is the
current row count (standing in for `uuid4`). -/

structure ChatRequestM where
  query : String
  user_id : String
deriving DecidableEq, Repr

structure ValidatedResponse where
  answer : String
  citations : List ℕ
  confidence_score : ℚ
  warnings : List String
deriving DecidableEq, Repr

structure ChatInteractionRow where
  id : ℕ
  user_id : String
  query : String
  answer : String
  confidence_score : ℚ
  citations_count : ℕ
deriving DecidableEq, Repr

structure ChatResponseM where
  interaction_id : Option ℕ
  answer : String
  citations : List ℕ
  confidence_score : ℚ
  warnings : List String
deriving DecidableEq, Repr

/-- Apostrophe as a one-character string, written by code point. -/
def aposS : String := String.mk [apos]

/-- The canned no-documents answer of `_create_empty_response`. -/
def emptyAnswerText : String :=
  "I don" ++ aposS ++
    "t have any relevant documents to answer this question. This could mean:\n" ++
    "1. No documents have been uploaded for your account\n" ++
    "2. Your query doesn" ++ aposS ++ "t match any indexed content\n" ++
    "3. The specified document doesn" ++ aposS ++ "t exist\n\n" ++
    "Please try uploading documents first or rephrasing your question."

def noDocsWarning : String := "No relevant documents found for query"

/-- Embedding of `ChatService._create_empty_response`: canned answer, no
citations, zero confidence, the two fixed warnings, and no interaction id. -/
def create_empty_response : ChatResponseM :=
  ⟨none, emptyAnswerText, [], 0,
    [noDocsWarning, "Unable to provide a factual answer"]⟩

/-- Embedding of the post-retrieval orchestration of
`ChatService.process_chat`: empty retrieval short-circuits to the canned
response without touching the interaction table; otherwise the validated
answer is persisted as one new `ChatInteraction` row whose id is returned
in the response. -/
def process_chat {α : Type} (req : ChatRequestM) (retrieval_results : List α)
    (validated : ValidatedResponse) (db : List ChatInteractionRow) :
    ChatResponseM × List ChatInteractionRow :=
  if retrieval_results.isEmpty then (create_empty_response, db)
  else
    let interaction : ChatInteractionRow :=
      ⟨db.length, req.user_id, req.query, validated.answer,
        validated.confidence_score, validated.citations.length⟩
    (⟨some interaction.id, validated.answer, validated.citations,
        validated.confidence_score, validated.warnings⟩,
      db ++ [interaction])

/-! ### Claim C8 (confirmed) -/

/-- C8: with no retrieval results the orchestrator answers with the canned
no-documents message, empty citations, confidence 0, a warning containing
"No relevant documents found for query", carries no interaction id, and
persists nothing; with non-empty retrieval and a successful generation it
persists exactly one interaction row and returns its id. -/
theorem c8_empty_retrieval_no_persist {α : Type} (req : ChatRequestM)
    (retrieval_results : List α) (validated : ValidatedResponse)
    (db : List ChatInteractionRow) :
    (retrieval_results = [] →
      process_chat req retrieval_results validated db
          = (create_empty_response, db) ∧
        (process_chat req retrieval_results validated db).1.interaction_id
          = none ∧
        (process_chat req retrieval_results validated db).1.answer
          = emptyAnswerText ∧
        (process_chat req retrieval_results validated db).1.citations = [] ∧
        (process_chat req retrieval_results validated db).1.confidence_score
          = 0 ∧
        noDocsWarning ∈
          (process_chat req retrieval_results validated db).1.warnings ∧
        (process_chat req retrieval_results validated db).2 = db) ∧
    (retrieval_results ≠ [] →
      (process_chat req retrieval_results validated db).2
          = db ++ [⟨db.length, req.user_id, req.query, validated.answer,
              validated.confidence_score, validated.citations.length⟩] ∧
        (process_chat req retrieval_results validated db).2.length
          = db.length + 1 ∧
        (process_chat req retrieval_results validated db).1.interaction_id
          = some db.length) := by
  constructor
  · intro hempty
    subst hempty
    refine ⟨rfl, rfl, rfl, rfl, rfl, ?_, rfl⟩
    simp [process_chat, create_empty_response]
  · intro hne
    have h : retrieval_results.isEmpty = false := by
      simpa [List.isEmpty_iff] using hne
    simp [process_chat, h]

/-- C8 witness: the theorem applied to an empty and to a one-element
retrieval outcome over an empty interaction table. -/
theorem c8_empty_retrieval_no_persist_witness :
    (process_chat ⟨"q", "tenant-a"⟩ ([] : List ℕ)
        ⟨"ans", [1], 1, []⟩ []).2 = [] ∧
    (process_chat ⟨"q", "tenant-a"⟩ [0]
        ⟨"ans", [1], 1, []⟩ []).2.length = 1 := by
  constructor
  · exact ((c8_empty_retrieval_no_persist ⟨"q", "tenant-a"⟩ ([] : List ℕ)
      ⟨"ans", [1], 1, []⟩ []).1 rfl).2.2.2.2.2.2
  · exact ((c8_empty_retrieval_no_persist ⟨"q", "tenant-a"⟩ [0]
      ⟨"ans", [1], 1, []⟩ []).2 (by decide)).2.1

/-! ### Feedback service
Embeds `FeedbackService.submit_feedback`
(`app/services/monitoring/feedback_service.py`, lines 21-97).  SQLAlchemy
`scalar_one_or_none` returns the single matching row, `none` for no match,
and raises on several matches; the raise is the `Except.error` case, which
the service catches (rollback plus `None`).  A fresh feedback row id is the
current row count (standing in for `uuid4`); timestamps are not carried. -/

structure ChatFeedbackRow where
  id : ℕ
  interaction_id : ℕ
  rating : ℕ
  comment : Option String
deriving DecidableEq, Repr

structure FeedbackDB where
  interactions : List ChatInteractionRow
  feedbacks : List ChatFeedbackRow
deriving DecidableEq, Repr

/-- SQLAlchemy `scalar_one_or_none` over the rows matched by a filter. -/
def scalar_one_or_none {β : Type} : List β → Except Unit (Option β)
  | [] => .ok none
  | [x] => .ok (some x)
  | _ => .error ()

/-- Embedding of `FeedbackService.submit_feedback`: reject ratings outside
1..5, require the interaction to exist, then update the existing feedback
row in place or insert a new one. -/
def submit_feedback (db : FeedbackDB) (interaction_id : ℕ) (rating : ℕ)
    (comment : Option String) : Option ChatFeedbackRow × FeedbackDB :=
  if ¬(1 ≤ rating ∧ rating ≤ 5) then (none, db)
  else
    match scalar_one_or_none
        (db.interactions.filter (fun i => i.id == interaction_id)) with
    | .error _ => (none, db)
    | .ok none => (none, db)
    | .ok (some _) =>
      match scalar_one_or_none
          (db.feedbacks.filter (fun f => f.interaction_id == interaction_id)) with
      | .error _ => (none, db)
      | .ok (some old) =>
        let updated : ChatFeedbackRow :=
          ⟨old.id, old.interaction_id, rating, comment⟩
        (some updated,
          ⟨db.interactions,
            db.feedbacks.map (fun f => if f.id = old.id then updated else f)⟩)
      | .ok none =>
        let fb : ChatFeedbackRow :=
          ⟨db.feedbacks.length, interaction_id, rating, comment⟩
        (some fb, ⟨db.interactions, db.feedbacks ++ [fb]⟩)

/-- Inversion for `scalar_one_or_none`: a single row is returned exactly
from a singleton match list. -/
theorem scalar_one_or_none_ok_some {β : Type} :
    ∀ {l : List β} {x : β}, scalar_one_or_none l = .ok (some x) → l = [x]
  | [], x, h => by simp [scalar_one_or_none] at h
  | [y], x, h => by
    simp only [scalar_one_or_none, Except.ok.injEq, Option.some.injEq] at h
    rw [h]
  | a :: b :: rest, x, h => by simp [scalar_one_or_none] at h

/-- Replacing the unique row that carries `old.id` keeps every other row,
so the rows matching a predicate satisfied by `old` and by its replacement
stay a singleton. -/
theorem filter_map_replace (p : ChatFeedbackRow → Bool)
    (old updated : ChatFeedbackRow) (hupid : updated.id = old.id)
    (hup : p updated = true) :
    ∀ l : List ChatFeedbackRow, (l.map ChatFeedbackRow.id).Nodup →
      l.filter p = [old] →
      (l.map (fun f => if f.id = old.id then updated else f)).filter p
        = [updated]
  | [], _, hf => by simp at hf
  | x :: xs, hid, hf => by
    rw [List.map_cons, List.nodup_cons] at hid
    by_cases hpx : p x = true
    · rw [List.filter_cons_of_pos hpx] at hf
      have hx : x = old := (List.cons_eq_cons.mp hf).1
      have hxs : xs.filter p = [] := (List.cons_eq_cons.mp hf).2
      subst hx
      have hmap : xs.map (fun f => if f.id = x.id then updated else f)
          = xs := by
        conv_rhs => rw [← List.map_id xs]
        apply List.map_congr_left
        intro a ha
        have : a.id ≠ x.id := by
          intro hcontra
          exact hid.1 (hcontra ▸ List.mem_map_of_mem ChatFeedbackRow.id ha)
        simp [this]
      simp only [List.map_cons, if_pos rfl, if_true, hmap,
        List.filter_cons_of_pos hup, hxs]
    · rw [List.filter_cons_of_neg hpx] at hf
      have hmem : old ∈ xs := by
        have : old ∈ xs.filter p := by rw [hf]; exact List.mem_singleton_self _
        exact List.mem_of_mem_filter this
      have hxid : ¬x.id = old.id := by
        intro hcontra
        exact hid.1 (hcontra ▸ List.mem_map_of_mem ChatFeedbackRow.id hmem)
      rw [List.map_cons, if_neg hxid, List.filter_cons_of_neg hpx]
      exact filter_map_replace p old updated hupid hup xs hid.2 hf

/-! ### Claim C10 (corrected) -/

/-- C10 counterexample: the feedback service receives no submitter identity
and checks no tenant ownership, so a submitter from tenant "tenant-b" can
successfully store feedback against the interaction owned by "tenant-a":
the submission succeeds, every interaction in the store is owned by
"tenant-a", and "tenant-a" is not "tenant-b".  This refutes "every
successfully stored ChatFeedback references an existing ChatInteraction
owned by the same tenant as the submitter". -/
theorem c10_tenant_ownership_counterexample :
    (submit_feedback ⟨[⟨0, "tenant-a", "q", "a", 1, 0⟩], []⟩ 0 4
        none).1.isSome = true ∧
    (∀ i ∈ (FeedbackDB.mk [⟨0, "tenant-a", "q", "a", 1, 0⟩] []).interactions,
      i.user_id = "tenant-a") ∧
    "tenant-a" ≠ "tenant-b" := by
  decide

/-- C10 (amended): every successfully stored feedback references an
existing ChatInteraction (tenant ownership is not checked); with unique row
ids and at most one prior feedback row per interaction, a re-submission for
an interaction that already has a row replaces its rating and comment in
place, keeping exactly one row, while a first submission appends exactly
one row; and in the spec scenario, submitting rating 2 and then rating 5
for the same interaction leaves exactly one feedback row, with rating 5. -/
theorem c10_feedback_amended (db : FeedbackDB) (iid rating : ℕ)
    (comment : Option String) :
    (∀ fb, (submit_feedback db iid rating comment).1 = some fb →
      fb.interaction_id = iid ∧ ∃ i ∈ db.interactions, i.id = iid) ∧
    (∀ old i0, (db.feedbacks.map ChatFeedbackRow.id).Nodup →
      1 ≤ rating → rating ≤ 5 →
      db.interactions.filter (fun i => i.id == iid) = [i0] →
      db.feedbacks.filter (fun f => f.interaction_id == iid) = [old] →
      (submit_feedback db iid rating comment).2.feedbacks.filter
          (fun f => f.interaction_id == iid)
        = [⟨old.id, old.interaction_id, rating, comment⟩]) ∧
    (∀ i0, 1 ≤ rating → rating ≤ 5 →
      db.interactions.filter (fun i => i.id == iid) = [i0] →
      db.feedbacks.filter (fun f => f.interaction_id == iid) = [] →
      (submit_feedback db iid rating comment).2.feedbacks
        = db.feedbacks ++ [⟨db.feedbacks.length, iid, rating, comment⟩]) ∧
    ((submit_feedback
        (submit_feedback ⟨[⟨0, "tenant-a", "q", "a", 1, 0⟩], []⟩ 0 2
          none).2 0 5 none).2.feedbacks
      = [⟨0, 0, 5, none⟩]) := by
  refine ⟨?_, ?_, ?_, by decide⟩
  · intro fb hfb
    by_cases hr : 1 ≤ rating ∧ rating ≤ 5
    · rw [submit_feedback, if_neg (not_not_intro hr)] at hfb
      rcases hi : scalar_one_or_none
          (db.interactions.filter (fun i => i.id == iid)) with he | oi
      · rw [hi] at hfb; cases hfb
      · rcases oi with _ | i0
        · rw [hi] at hfb; cases hfb
        · have hilist := scalar_one_or_none_ok_some hi
          have hex : ∃ i ∈ db.interactions, i.id = iid := by
            have : i0 ∈ db.interactions.filter (fun i => i.id == iid) := by
              rw [hilist]; exact List.mem_singleton_self _
            exact ⟨i0, List.mem_of_mem_filter this,
              by simpa using List.of_mem_filter this⟩
          rw [hi] at hfb
          rcases hfk : scalar_one_or_none
              (db.feedbacks.filter (fun f => f.interaction_id == iid)) with
            he2 | of
          · rw [hfk] at hfb; cases hfb
          · rcases of with _ | old
            · rw [hfk] at hfb
              simp only [Option.some.injEq] at hfb
              exact ⟨by rw [← hfb], hex⟩
            · have holdlist := scalar_one_or_none_ok_some hfk
              have holdmem : old ∈ db.feedbacks.filter
                  (fun f => f.interaction_id == iid) := by
                rw [holdlist]; exact List.mem_singleton_self _
              have holdiid : old.interaction_id = iid := by
                simpa using List.of_mem_filter holdmem
              rw [hfk] at hfb
              simp only [Option.some.injEq] at hfb
              exact ⟨by rw [← hfb]; exact holdiid, hex⟩
    · rw [submit_feedback, if_pos hr] at hfb
      cases hfb
  · intro old i0 hid hr1 hr5 hint hfb
    rw [submit_feedback, if_neg (not_not_intro ⟨hr1, hr5⟩), hint, hfb]
    simp only [scalar_one_or_none]
    have holdmem : old ∈ db.feedbacks.filter
        (fun f => f.interaction_id == iid) := by
      rw [hfb]; exact List.mem_singleton_self _
    have holdiid := List.of_mem_filter holdmem
    exact filter_map_replace _ old
      ⟨old.id, old.interaction_id, rating, comment⟩ rfl
      (by simpa using holdiid) db.feedbacks hid hfb
  · intro i0 hr1 hr5 hint hfb
    rw [submit_feedback, if_neg (not_not_intro ⟨hr1, hr5⟩), hint, hfb]
    simp [scalar_one_or_none]

/-- C10 witness: the amended theorem applied at a store holding one
interaction and one prior feedback row. -/
theorem c10_feedback_amended_witness :
    (submit_feedback ⟨[⟨0, "tenant-a", "q", "a", 1, 0⟩], [⟨0, 0, 2, none⟩]⟩
        0 5 none).2.feedbacks.filter (fun f => f.interaction_id == 0)
      = [⟨0, 0, 5, none⟩] :=
  (c10_feedback_amended
      ⟨[⟨0, "tenant-a", "q", "a", 1, 0⟩], [⟨0, 0, 2, none⟩]⟩ 0 5
      none).2.1 ⟨0, 0, 2, none⟩ ⟨0, "tenant-a", "q", "a", 1, 0⟩
    (by decide) (by decide) (by decide) (by decide) (by decide)

/-! ### MMR reranker
Embeds `MMR.rerank` (`app/services/retrieval/mmr.py`, lines 31-134).  The
numpy normalization and dot products of lines 71-81 produce the
query-candidate cosine similarities and the pairwise candidate
similarities; the embedding abstracts them as the inputs `simQ` (list
aligned with the candidates) and `simM` (pairwise similarity function), and
translates the selection loop of lines 83-124 exactly.  The candidate count
is the length of `candidate_scores`, which runs parallel to
`candidate_embeddings` in the source. -/

/-- Accumulator walk of `np.argmax`: carry the first maximal (index, value)
pair, replacing it only on a strictly greater value. -/
def argmaxGoPair : List ℚ → ℕ → ℕ × ℚ → ℕ × ℚ
  | [], _, b => b
  | x :: xs, i, b =>
    if b.2 < x then argmaxGoPair xs (i + 1) (i, x)
    else argmaxGoPair xs (i + 1) b

/-- Index of the first maximal element, as `np.argmax` (0 on the empty
list). -/
def argmaxIdx (l : List ℚ) : ℕ :=
  match l with
  | [] => 0
  | x :: xs => (argmaxGoPair xs 1 (0, x)).1

/-- MMR score of candidate `idx` against the selected list: relevance term
minus diversity term, with `np.max` over the similarities to the selected
documents (0.0 for an empty selection, as in the source). -/
def mmrScore (lam : ℚ) (simQ : List ℚ) (simM : ℕ → ℕ → ℚ)
    (selected : List ℕ) (idx : ℕ) : ℚ :=
  let relevance := simQ.getD idx 0
  let max_similarity : ℚ :=
    match selected with
    | [] => 0
    | s :: ss => (ss.map (fun t => simM t idx)).foldl max (simM s idx)
  lam * relevance - (1 - lam) * max_similarity

/-- Selection loop of `MMR.rerank` (lines 92-124): while more documents are
wanted and candidates remain, append the remaining candidate with the
highest MMR score and remove it from the remaining list. -/
def mmrLoop (lam : ℚ) (simQ : List ℚ) (simM : ℕ → ℕ → ℚ) :
    ℕ → List ℕ → List ℕ → List ℕ
  | 0, selected, _ => selected
  | _ + 1, selected, [] => selected
  | steps + 1, selected, r :: rs =>
    let mmr_scores := (r :: rs).map (mmrScore lam simQ simM selected)
    let best := (r :: rs).getD (argmaxIdx mmr_scores) 0
    mmrLoop lam simQ simM steps (selected ++ [best]) ((r :: rs).erase best)

/-- Embedding of `MMR.rerank`: guard the empty-candidate and
non-positive-`top_k` cases, seed with the index of the highest relevance
score, then run the selection loop for the remaining
`min top_k n - 1` picks. -/
def rerank (simQ scores : List ℚ) (simM : ℕ → ℕ → ℚ) (top_k : ℕ)
    (lam : ℚ) : List ℕ :=
  if scores = [] then []
  else if top_k = 0 then []
  else
    let first := argmaxIdx scores
    mmrLoop lam simQ simM (min top_k scores.length - 1) [first]
      ((List.range scores.length).erase first)

/-- Walk invariant of `argmaxGoPair`: the result is the carried pair or one
of the walked (offset index, value) pairs, and its value dominates the
carried value and every walked value. -/
theorem argmaxGoPair_spec (xs : List ℚ) : ∀ (i : ℕ) (b : ℕ × ℚ),
    (argmaxGoPair xs i b = b ∨
      ∃ k, k < xs.length ∧ argmaxGoPair xs i b = (i + k, xs.getD k 0)) ∧
    b.2 ≤ (argmaxGoPair xs i b).2 ∧
    (∀ k, k < xs.length → xs.getD k 0 ≤ (argmaxGoPair xs i b).2) := by
  induction xs with
  | nil =>
    intro i b
    refine ⟨Or.inl rfl, le_refl _, ?_⟩
    intro k hk
    simp at hk
  | cons x xs ih =>
    intro i b
    rw [argmaxGoPair]
    by_cases hbx : b.2 < x
    · rw [if_pos hbx]
      obtain ⟨hmem, hle, hall⟩ := ih (i + 1) (i, x)
      refine ⟨?_, le_of_lt (lt_of_lt_of_le hbx hle), ?_⟩
      · right
        rcases hmem with h | ⟨k, hk, hkeq⟩
        · exact ⟨0, by simp, by rw [h]; simp⟩
        · refine ⟨k + 1, by simpa using Nat.succ_lt_succ hk, ?_⟩
          rw [hkeq]
          have : i + 1 + k = i + (k + 1) := by omega
          rw [this, List.getD_cons_succ]
      · intro k hk
        cases k with
        | zero => simpa using hle
        | succ k =>
          rw [List.getD_cons_succ]
          exact hall k (by simpa using hk)
    · rw [if_neg hbx]
      obtain ⟨hmem, hle, hall⟩ := ih (i + 1) b
      have hxb : x ≤ b.2 := le_of_not_lt hbx
      refine ⟨?_, hle, ?_⟩
      · rcases hmem with h | ⟨k, hk, hkeq⟩
        · exact Or.inl h
        · right
          refine ⟨k + 1, by simpa using Nat.succ_lt_succ hk, ?_⟩
          rw [hkeq]
          have : i + 1 + k = i + (k + 1) := by omega
          rw [this, List.getD_cons_succ]
      · intro k hk
        cases k with
        | zero => simpa using le_trans hxb hle
        | succ k =>
          rw [List.getD_cons_succ]
          exact hall k (by simpa using hk)

/-- Specification of `argmaxIdx` on a non-empty list: the index is in
range and its element dominates every element. -/
theorem argmaxIdx_spec (l : List ℚ) (h : l ≠ []) :
    argmaxIdx l < l.length ∧
      ∀ k, k < l.length → l.getD k 0 ≤ l.getD (argmaxIdx l) 0 := by
  match l with
  | x :: xs =>
    obtain ⟨hmem, hle, hall⟩ := argmaxGoPair_spec xs 1 (0, x)
    have hval : (x :: xs).getD (argmaxGoPair xs 1 (0, x)).1 0
        = (argmaxGoPair xs 1 (0, x)).2 := by
      rcases hmem with h1 | ⟨k, hk, hkeq⟩
      · rw [h1]
        simp
      · rw [hkeq]
        have : 1 + k = k + 1 := by omega
        simp [this]
    have hlt : (argmaxGoPair xs 1 (0, x)).1 < (x :: xs).length := by
      rcases hmem with h1 | ⟨k, hk, hkeq⟩
      · rw [h1]
        simp
      · rw [hkeq]
        simpa using by omega
    refine ⟨hlt, ?_⟩
    intro k hk
    have hidx : argmaxIdx (x :: xs) = (argmaxGoPair xs 1 (0, x)).1 := rfl
    rw [hidx, hval]
    cases k with
    | zero => simpa using hle
    | succ k =>
      rw [List.getD_cons_succ]
      exact hall k (by simpa using hk)

/-- `getD` commutes with `map` for in-range indices. -/
theorem getD_map_val (f : ℕ → ℚ) (l : List ℕ) (k : ℕ)
    (hk : k < l.length) :
    (l.map f).getD k 0 = f (l.getD k 0) := by
  rw [List.getD_eq_getElem _ _ (by simpa using hk),
    List.getD_eq_getElem _ _ hk, List.getElem_map]

/-- The candidate picked through `argmaxIdx` over mapped values is a member
of the list and maximizes the mapped value. -/
theorem argmax_best (f : ℕ → ℚ) (l : List ℕ) (h : l ≠ []) :
    l.getD (argmaxIdx (l.map f)) 0 ∈ l ∧
      ∀ j ∈ l, f j ≤ f (l.getD (argmaxIdx (l.map f)) 0) := by
  have hml : l.map f ≠ [] := by simpa using h
  obtain ⟨hlt, hall⟩ := argmaxIdx_spec (l.map f) hml
  rw [List.length_map] at hlt
  refine ⟨?_, ?_⟩
  · rw [List.getD_eq_getElem _ _ hlt]
    exact List.getElem_mem _
  intro j hj
  obtain ⟨k, hk, hkeq⟩ := List.getElem_of_mem hj
  have hstep := hall k (by simpa using hk)
  rw [getD_map_val f l k hk, getD_map_val f l _ hlt] at hstep
  have hkd : l.getD k 0 = j := by
    rw [List.getD_eq_getElem _ _ hk, hkeq]
  rw [hkd] at hstep
  exact hstep

/-- Invariant of the MMR selection loop: with the remaining list holding
exactly the in-range indices not yet selected, the loop extends the
selection by `min fuel remaining.length` picks, keeps it duplicate-free and
in range, and each pick maximizes the MMR score over the candidates not yet
selected at its step. -/
theorem mmrLoop_master (lam : ℚ) (simQ : List ℚ) (simM : ℕ → ℕ → ℚ)
    (n : ℕ) :
    ∀ (fuel : ℕ) (selected remaining : List ℕ),
      selected.Nodup → remaining.Nodup →
      (∀ x, x ∈ remaining ↔ (x < n ∧ x ∉ selected)) →
      (∀ x ∈ selected, x < n) →
      (mmrLoop lam simQ simM fuel selected remaining).length
          = selected.length + min fuel remaining.length ∧
      selected <+: mmrLoop lam simQ simM fuel selected remaining ∧
      (mmrLoop lam simQ simM fuel selected remaining).Nodup ∧
      (∀ x ∈ mmrLoop lam simQ simM fuel selected remaining, x < n) ∧
      (∀ k, selected.length ≤ k →
        k < (mmrLoop lam simQ simM fuel selected remaining).length →
        (mmrLoop lam simQ simM fuel selected remaining).getD k 0
            ∉ (mmrLoop lam simQ simM fuel selected remaining).take k ∧
          ∀ j, j < n →
            j ∉ (mmrLoop lam simQ simM fuel selected remaining).take k →
            mmrScore lam simQ simM
                ((mmrLoop lam simQ simM fuel selected remaining).take k) j
              ≤ mmrScore lam simQ simM
                  ((mmrLoop lam simQ simM fuel selected remaining).take k)
                  ((mmrLoop lam simQ simM fuel selected remaining).getD k 0))
  | 0, selected, remaining, hsel, _, _, hbnd => by
    rw [mmrLoop]
    refine ⟨by simp, List.prefix_refl _, hsel, hbnd, ?_⟩
    intro k hk1 hk2
    omega
  | fuel + 1, selected, [], hsel, _, _, hbnd => by
    rw [mmrLoop]
    refine ⟨by simp, List.prefix_refl _, hsel, hbnd, ?_⟩
    intro k hk1 hk2
    omega
  | fuel + 1, selected, r :: rs, hsel, hrem, hchar, hbnd => by
    have hne : (r :: rs) ≠ [] := List.cons_ne_nil r rs
    obtain ⟨hbmem, hbmax⟩ :=
      argmax_best (mmrScore lam simQ simM selected) (r :: rs) hne
    set best := (r :: rs).getD
      (argmaxIdx ((r :: rs).map (mmrScore lam simQ simM selected))) 0 with hbestdef
    have hbn : best < n := ((hchar best).mp hbmem).1
    have hbsel : best ∉ selected := ((hchar best).mp hbmem).2
    have hstep : mmrLoop lam simQ simM (fuel + 1) selected (r :: rs)
        = mmrLoop lam simQ simM fuel (selected ++ [best])
            ((r :: rs).erase best) := by
      rw [mmrLoop]
    have hsel2 : (selected ++ [best]).Nodup := by
      rw [List.nodup_append]
      exact ⟨hsel, List.nodup_singleton best,
        fun a ha hb => hbsel (List.mem_singleton.mp hb ▸ ha)⟩
    have hrem2 : ((r :: rs).erase best).Nodup := hrem.erase best
    have hchar2 : ∀ x, x ∈ (r :: rs).erase best ↔
        (x < n ∧ x ∉ selected ++ [best]) := by
      intro x
      rw [hrem.mem_erase_iff, hchar x]
      simp only [List.mem_append, List.mem_singleton]
      constructor
      · rintro ⟨hne2, hlt, hns⟩
        exact ⟨hlt, by rintro (h | h) <;> [exact hns h; exact hne2 h]⟩
      · rintro ⟨hlt, hnboth⟩
        exact ⟨fun h => hnboth (Or.inr h), hlt, fun h => hnboth (Or.inl h)⟩
    have hbnd2 : ∀ x ∈ selected ++ [best], x < n := by
      intro x hx
      rcases List.mem_append.mp hx with h | h
      · exact hbnd x h
      · rwa [List.mem_singleton.mp h]
    obtain ⟨ihlen, ihpre, ihnd, ihbnd, ihgreedy⟩ :=
      mmrLoop_master lam simQ simM n fuel (selected ++ [best])
        ((r :: rs).erase best) hsel2 hrem2 hchar2 hbnd2
    have herlen : ((r :: rs).erase best).length = (r :: rs).length - 1 :=
      List.length_erase_of_mem hbmem
    refine ⟨?_, ?_, ?_, ?_, ?_⟩
    · rw [hstep, ihlen, herlen]
      simp only [List.length_append, List.length_cons, List.length_singleton,
        List.length_nil]
      omega
    · rw [hstep]
      exact (List.prefix_append selected [best]).trans ihpre
    · rw [hstep]
      exact ihnd
    · rw [hstep]
      exact ihbnd
    · intro k hk1 hk2
      rw [hstep] at hk2 ⊢
      rcases Nat.lt_or_ge k (selected.length + 1) with hklt | hkge
      · have hkeq : k = selected.length := by omega
        subst hkeq
        obtain ⟨t, ht⟩ := ihpre
        have htake : (mmrLoop lam simQ simM fuel (selected ++ [best])
            ((r :: rs).erase best)).take selected.length = selected := by
          rw [← ht, List.append_assoc,
            List.take_append_of_le_length (le_refl _),
            List.take_length]
        have hget : (mmrLoop lam simQ simM fuel (selected ++ [best])
            ((r :: rs).erase best)).getD selected.length 0 = best := by
          rw [← ht]
          have hlt1 : selected.length < (selected ++ [best]).length := by
            simp
          have hlt2 : selected.length
              < ((selected ++ [best]) ++ t).length := by
            simp
          rw [List.getD_eq_getElem _ _ hlt2,
            List.getElem_append_left hlt1, List.getElem_concat_length]
          rfl
        refine ⟨?_, ?_⟩
        · rw [htake, hget]
          exact hbsel
        · intro j hj hjn
          rw [htake] at hjn ⊢
          rw [hget]
          exact hbmax j ((hchar j).mpr ⟨hj, hjn⟩)
      · exact ihgreedy k
          (by simp only [List.length_append, List.length_cons,
            List.length_singleton, List.length_nil]; omega) hk2

/-! ### Claim C9 (confirmed) -/

/-- C9: for every non-empty candidate list (scores aligned with the
query-candidate similarities `simQ` and pairwise similarities `simM`
computed by the source from the L2-normalized embeddings) and every
`top_k ≥ 1`, `MMR.rerank` returns exactly `min top_k n` candidate indices,
all in range and with no duplicates; the first is the index of the highest
relevance score; and every later pick is a not-yet-selected candidate whose
MMR score `λ·sim(d,q) − (1−λ)·max over selected s of sim(d,s)` is maximal
among the not-yet-selected candidates at its step. -/
theorem c9_mmr_rerank (simQ scores : List ℚ) (simM : ℕ → ℕ → ℚ)
    (top_k : ℕ) (lam : ℚ) (hne : scores ≠ []) (htk : 1 ≤ top_k) :
    (rerank simQ scores simM top_k lam).length = min top_k scores.length ∧
    (rerank simQ scores simM top_k lam).Nodup ∧
    (∀ x ∈ rerank simQ scores simM top_k lam, x < scores.length) ∧
    (rerank simQ scores simM top_k lam).head? = some (argmaxIdx scores) ∧
    (∀ k, k < scores.length →
      scores.getD k 0 ≤ scores.getD (argmaxIdx scores) 0) ∧
    (∀ k, 1 ≤ k → k < (rerank simQ scores simM top_k lam).length →
      (rerank simQ scores simM top_k lam).getD k 0
          ∉ (rerank simQ scores simM top_k lam).take k ∧
        ∀ j, j < scores.length →
          j ∉ (rerank simQ scores simM top_k lam).take k →
          mmrScore lam simQ simM
              ((rerank simQ scores simM top_k lam).take k) j
            ≤ mmrScore lam simQ simM
                ((rerank simQ scores simM top_k lam).take k)
                ((rerank simQ scores simM top_k lam).getD k 0)) := by
  obtain ⟨hfirst_lt, hfirst_max⟩ := argmaxIdx_spec scores hne
  have hlen_pos : 0 < scores.length := List.length_pos.mpr hne
  have hrw : rerank simQ scores simM top_k lam
      = mmrLoop lam simQ simM (min top_k scores.length - 1)
          [argmaxIdx scores]
          ((List.range scores.length).erase (argmaxIdx scores)) := by
    rw [rerank, if_neg hne, if_neg (by omega)]
  have hchar : ∀ x,
      x ∈ (List.range scores.length).erase (argmaxIdx scores) ↔
        (x < scores.length ∧ x ∉ [argmaxIdx scores]) := by
    intro x
    rw [(List.nodup_range scores.length).mem_erase_iff, List.mem_range]
    simp [and_comm]
  have hbnd : ∀ x ∈ [argmaxIdx scores], x < scores.length := by
    intro x hx
    rwa [List.mem_singleton.mp hx]
  obtain ⟨hlen, hpre, hnd, hb, hgreedy⟩ :=
    mmrLoop_master lam simQ simM scores.length
      (min top_k scores.length - 1) [argmaxIdx scores]
      ((List.range scores.length).erase (argmaxIdx scores))
      (List.nodup_singleton _)
      ((List.nodup_range scores.length).erase _) hchar hbnd
  have herlen : ((List.range scores.length).erase
      (argmaxIdx scores)).length = scores.length - 1 := by
    rw [List.length_erase_of_mem (List.mem_range.mpr hfirst_lt),
      List.length_range]
  refine ⟨?_, ?_, ?_, ?_, hfirst_max, ?_⟩
  · rw [hrw, hlen, herlen]
    simp only [List.length_singleton]
    omega
  · rw [hrw]
    exact hnd
  · rw [hrw]
    exact hb
  · rw [hrw]
    obtain ⟨t, ht⟩ := hpre
    rw [← ht]
    rfl
  · intro k hk1 hk2
    rw [hrw] at hk2 ⊢
    exact hgreedy k (by simpa using hk1) hk2

/-- C9 witness: the theorem applied to three candidates with scores
[0.9, 0.5, 0.8], checking the selection size, seed and range facts at a
concrete input. -/
theorem c9_mmr_rerank_witness :
    (rerank [1, 0, 0] [(0.9 : ℚ), 0.5, 0.8]
        (fun _ _ => 0) 2 (1/2)).length = 2 ∧
    (rerank [1, 0, 0] [(0.9 : ℚ), 0.5, 0.8]
        (fun _ _ => 0) 2 (1/2)).head? = some (argmaxIdx [(0.9 : ℚ), 0.5, 0.8]) := by
  have h := c9_mmr_rerank [1, 0, 0] [(0.9 : ℚ), 0.5, 0.8]
    (fun _ _ => 0) 2 (1/2) (by simp) (by omega)
  exact ⟨h.1, h.2.2.2.1⟩

/-! ### Query classifier
Embeds `QueryClassifier.classify` and `_score_patterns`
(`app/services/retrieval/query_classifier.py`, lines 78-140) together with
the five regex pattern families (lines 34-65).  Each pattern is a word or
phrase wrapped in `\b` boundaries, possibly combined with `\s+`, `.*` (which
does not cross a newline) or a literal `?`; they are embedded as boundary-
aware matchers on the character list.  IGNORECASE is modelled by lowering
the query and writing the patterns in lowercase; the ASCII fragment of
`\w`, `\s` and `str.strip` is modelled, which covers every string in the
development. -/

def isWordChar (c : Char) : Bool :=
  c.isAlpha || c.isDigit || c = '_'

def toLowerList (s : String) : List Char :=
  s.toList.map Char.toLower

/-- Python `str.strip()`: drop leading and trailing whitespace. -/
def stripChars (cs : List Char) : List Char :=
  ((cs.dropWhile isSpaceChar).reverse.dropWhile isSpaceChar).reverse

/-- Literal match of `p` at position `i` of `q`. -/
def litAt (q p : List Char) (i : ℕ) : Bool :=
  p.isPrefixOf (q.drop i)

/-- Regex `\b` immediately before position `i`. -/
def boundaryBefore (q : List Char) (i : ℕ) : Bool :=
  i == 0 || !(isWordChar (q.getD (i - 1) ' '))

/-- Regex `\b` immediately after position `j` (end of string counts). -/
def boundaryAfter (q : List Char) (j : ℕ) : Bool :=
  !(isWordChar (q.getD j ' '))

/-- Match `\b<p>\b` at position `i`. -/
def wordAt (q p : List Char) (i : ℕ) : Bool :=
  boundaryBefore q i && litAt q p i && boundaryAfter q (i + p.length)

/-- `re.search` for an alternation of `\b`-wrapped words or phrases. -/
def containsWordAny (q : List Char) (ps : List (List Char)) : Bool :=
  (List.range (q.length + 1)).any (fun i => ps.any (fun p => wordAt q p i))

/-- Tail of `.*\?`: a `?` occurs at or after position `e` with no newline
before it (`.` does not match a newline). -/
def questionAfter (q : List Char) (e : ℕ) : Bool :=
  ((q.drop e).takeWhile (fun c => !(c == '\n'))).any (fun c => c == '?')

/-- No newline in `q` between positions `a` (inclusive) and `b`
(exclusive), the region crossed by an inner `.*`. -/
def noNewlineBetween (q : List Char) (a b : ℕ) : Bool :=
  ((q.drop a).take (b - a)).all (fun c => !(c == '\n'))

/-- Match `\b(w₁|w₂|…)\b.*\?` for the verb alternation of the third
factual pattern. -/
def wordThenQuestion (q : List Char) (ps : List (List Char)) : Bool :=
  (List.range (q.length + 1)).any (fun i =>
    ps.any (fun p => wordAt q p i && questionAfter q (i + p.length)))

/-- Match `\b(w₁|…)\s+than\b` for the second comparative pattern; the
boundary after the first word is supplied by the mandatory whitespace. -/
def comparThan (q : List Char) (ps : List (List Char)) : Bool :=
  (List.range (q.length + 1)).any (fun i =>
    ps.any (fun p =>
      boundaryBefore q i && litAt q p i &&
        (let e := i + p.length
        let sp := ((q.drop e).takeWhile isSpaceChar).length
        decide (1 ≤ sp) && litAt q (String.toList "than") (e + sp) &&
          boundaryAfter q (e + sp + 4))))

/-- Match `\b<p>\b.*\b<p>\b`: two whole-word occurrences with no newline
between them. -/
def doubleWord (q p : List Char) : Bool :=
  (List.range (q.length + 1)).any (fun i =>
    wordAt q p i &&
      (List.range (q.length + 1)).any (fun j =>
        decide (i + p.length ≤ j) && wordAt q p j &&
          noNewlineBetween q (i + p.length) j))

/-- Match `\b<a>.*<b>\b`: `a` with a left boundary, later `b` with a right
boundary, no newline between them. -/
def seqWords (q a b : List Char) : Bool :=
  (List.range (q.length + 1)).any (fun i =>
    boundaryBefore q i && litAt q a i &&
      (List.range (q.length + 1)).any (fun j =>
        decide (i + a.length ≤ j) && litAt q b j &&
          boundaryAfter q (j + b.length) &&
          noNewlineBetween q (i + a.length) j))

/-- `_score_patterns` over the `FACTUAL_PATTERNS` family. -/
def factualScore (q : List Char) : ℕ :=
  (if containsWordAny q [String.toList "what", String.toList "who",
      String.toList "when", String.toList "where", String.toList "which",
      String.toList "how many", String.toList "how much"] then 1 else 0) +
  (if containsWordAny q [String.toList "define", String.toList "definition",
      String.toList "explain", String.toList "describe"] then 1 else 0) +
  (if wordThenQuestion q [String.toList "is", String.toList "are",
      String.toList "was", String.toList "were", String.toList "does",
      String.toList "did"] then 1 else 0)

/-- `_score_patterns` over the `COMPARATIVE_PATTERNS` family. -/
def comparativeScore (q : List Char) : ℕ :=
  (if containsWordAny q [String.toList "vs", String.toList "versus",
      String.toList "compare", String.toList "comparison",
      String.toList "difference", String.toList "similar",
      String.toList "different"] then 1 else 0) +
  (if comparThan q [String.toList "better", String.toList "worse",
      String.toList "more", String.toList "less", String.toList "greater",
      String.toList "smaller"] then 1 else 0) +
  (if containsWordAny q [String.toList "advantage",
      String.toList "disadvantage", String.toList "pros",
      String.toList "cons"] then 1 else 0)

/-- `_score_patterns` over the `TEMPORAL_PATTERNS` family. -/
def temporalScore (q : List Char) : ℕ :=
  (if containsWordAny q [String.toList "before", String.toList "after",
      String.toList "during", String.toList "since", String.toList "until",
      String.toList "between"] then 1 else 0) +
  (if containsWordAny q [String.toList "recent", String.toList "latest",
      String.toList "current", String.toList "past", String.toList "future",
      String.toList "history"] then 1 else 0) +
  (if containsWordAny q [String.toList "today", String.toList "yesterday",
      String.toList "tomorrow", String.toList "last",
      String.toList "next"] then 1 else 0) +
  (if containsWordAny q [String.toList "timeline",
      String.toList "chronology", String.toList "sequence",
      String.toList "evolution"] then 1 else 0)

/-- `_score_patterns` over the `CONVERSATIONAL_PATTERNS` family. -/
def conversationalScore (q : List Char) : ℕ :=
  (if containsWordAny q [String.toList "also", String.toList "too",
      String.toList "as well", String.toList "additionally",
      String.toList "furthermore"] then 1 else 0) +
  (if containsWordAny q [String.toList "this", String.toList "that",
      String.toList "these", String.toList "those", String.toList "it",
      String.toList "they"] then 1 else 0) +
  (if containsWordAny q [String.toList "tell me more",
      String.toList "can you", String.toList "what about"] then 1 else 0)

/-- `_score_patterns` over the `MULTI_HOP_PATTERNS` family. -/
def multiHopScore (q : List Char) : ℕ :=
  (if doubleWord q (String.toList "and") then 1 else 0) +
  (if doubleWord q (String.toList "or") then 1 else 0) +
  (if containsWordAny q [String.toList "both", String.toList "all",
      String.toList "each", String.toList "every"] then 1 else 0) +
  (if seqWords q (String.toList "first") (String.toList "then") ||
      seqWords q (String.toList "step") (String.toList "step")
    then 1 else 0) +
  (if containsWordAny q [String.toList "because",
      String.toList "therefore", String.toList "thus",
      String.toList "hence"] then 1 else 0)

/-- Python `max(scores, key=scores.get)` over the insertion-ordered
(class, score) pairs: keep the first pair, replacing it only on a strictly
greater score. -/
def pyMaxByVal : List (QueryType × ℕ) → QueryType × ℕ
  | [] => (QueryType.FACTUAL, 0)
  | x :: xs => xs.foldl (fun b y => if b.2 < y.2 then y else b) x

/-- Embedding of `QueryClassifier.classify`: empty or whitespace-only
queries return CONVERSATIONAL; otherwise MULTI_HOP wins on score at least
2, else the maximal class in dictionary insertion order, with a zero
maximum defaulting to FACTUAL. -/
def classify (query : String) : QueryType :=
  let stripped := stripChars (toLowerList query)
  if stripped = [] then QueryType.CONVERSATIONAL
  else if 2 ≤ multiHopScore stripped then QueryType.MULTI_HOP
  else
    let best := pyMaxByVal
      [(QueryType.FACTUAL, factualScore stripped),
        (QueryType.COMPARATIVE, comparativeScore stripped),
        (QueryType.TEMPORAL, temporalScore stripped),
        (QueryType.CONVERSATIONAL, conversationalScore stripped),
        (QueryType.MULTI_HOP, multiHopScore stripped)]
    if best.2 = 0 then QueryType.FACTUAL else best.1

/-- The amended selection rule written out from the corrected claim: the
earliest class in the order factual, comparative, temporal, conversational,
multi-hop among those attaining the maximal score, with the all-zero case
defaulting to factual. -/
def firstMaxClass (sF sC sT sCv sM : ℕ) : QueryType :=
  let m := max sF (max sC (max sT (max sCv sM)))
  if m = 0 then QueryType.FACTUAL
  else if sF = m then QueryType.FACTUAL
  else if sC = m then QueryType.COMPARATIVE
  else if sT = m then QueryType.TEMPORAL
  else if sCv = m then QueryType.CONVERSATIONAL
  else QueryType.MULTI_HOP

set_option maxHeartbeats 4000000 in
/-- The Python fold over the five insertion-ordered pairs picks the first
class attaining the maximal score, and the zero-maximum default agrees with
`firstMaxClass`. -/
theorem pyMax_eq_firstMax (a b c d e : ℕ) :
    (if (pyMaxByVal [(QueryType.FACTUAL, a), (QueryType.COMPARATIVE, b),
        (QueryType.TEMPORAL, c), (QueryType.CONVERSATIONAL, d),
        (QueryType.MULTI_HOP, e)]).2 = 0
      then QueryType.FACTUAL
      else (pyMaxByVal [(QueryType.FACTUAL, a), (QueryType.COMPARATIVE, b),
        (QueryType.TEMPORAL, c), (QueryType.CONVERSATIONAL, d),
        (QueryType.MULTI_HOP, e)]).1)
      = firstMaxClass a b c d e := by
  simp only [pyMaxByVal, List.foldl, firstMaxClass]
  split_ifs <;> first | rfl | omega

/-! ### Claim C7 (corrected) -/

/-- C7 counterexample: on the query "compare recent" the comparative and
temporal scores tie at the maximum (1 each, all others 0, multi-hop below
2), yet the classifier returns COMPARATIVE — the first class in dictionary
insertion order — not FACTUAL, refuting "ties between classes default to
FACTUAL". -/
theorem c7_tie_counterexample :
    classify "compare recent" = QueryType.COMPARATIVE ∧
    comparativeScore (stripChars (toLowerList "compare recent"))
      = temporalScore (stripChars (toLowerList "compare recent")) ∧
    1 ≤ comparativeScore (stripChars (toLowerList "compare recent")) ∧
    factualScore (stripChars (toLowerList "compare recent")) = 0 ∧
    conversationalScore (stripChars (toLowerList "compare recent")) = 0 ∧
    multiHopScore (stripChars (toLowerList "compare recent")) < 2 ∧
    classify "compare recent" ≠ QueryType.FACTUAL := by
  decide

/-- C7 (amended): empty or whitespace-only queries return CONVERSATIONAL;
otherwise the classifier returns MULTI_HOP when the multi-hop score is at
least 2, and else the earliest class in the order factual, comparative,
temporal, conversational, multi-hop among those attaining the maximal
pattern score, with the all-zero case defaulting to FACTUAL. -/
theorem c7_classifier_amended (query : String) :
    (stripChars (toLowerList query) = [] →
      classify query = QueryType.CONVERSATIONAL) ∧
    (stripChars (toLowerList query) ≠ [] →
      2 ≤ multiHopScore (stripChars (toLowerList query)) →
      classify query = QueryType.MULTI_HOP) ∧
    (stripChars (toLowerList query) ≠ [] →
      multiHopScore (stripChars (toLowerList query)) < 2 →
      classify query = firstMaxClass
        (factualScore (stripChars (toLowerList query)))
        (comparativeScore (stripChars (toLowerList query)))
        (temporalScore (stripChars (toLowerList query)))
        (conversationalScore (stripChars (toLowerList query)))
        (multiHopScore (stripChars (toLowerList query)))) := by
  refine ⟨?_, ?_, ?_⟩
  · intro h
    simp only [classify]
    rw [if_pos h]
  · intro h1 h2
    simp only [classify]
    rw [if_neg h1, if_pos h2]
  · intro h1 h2
    simp only [classify]
    rw [if_neg h1, if_neg (by omega)]
    exact pyMax_eq_firstMax _ _ _ _ _

/-- C7 witness: the amended theorem applied to the queries "compare
recent" (argmax branch) and "   " (whitespace-only branch). -/
theorem c7_classifier_amended_witness :
    classify "compare recent" = firstMaxClass
      (factualScore (stripChars (toLowerList "compare recent")))
      (comparativeScore (stripChars (toLowerList "compare recent")))
      (temporalScore (stripChars (toLowerList "compare recent")))
      (conversationalScore (stripChars (toLowerList "compare recent")))
      (multiHopScore (stripChars (toLowerList "compare recent"))) ∧
    classify "   " = QueryType.CONVERSATIONAL := by
  constructor
  · exact (c7_classifier_amended "compare recent").2.2 (by decide) (by decide)
  · exact (c7_classifier_amended "   ").1 (by decide)

end RagSpec
